import Mathlib

/-!
# Verification of the Codemind client-orchestration layer

Shallow embedding of the frontend client core of the Codemind repository:
the error normalizer (`lib/utils/errorHandler.ts`), the repository API and
its streaming chat loop and status poller (`lib/api.ts`), the search result
normalizer (`lib/api/search.ts`), the chat hook (`lib/hooks/useChat.ts`) and
the code-search hook (`lib/hooks/useCodeSearch.ts`).

JavaScript runtime values flowing through these functions are modelled by
the inductive type `JSValue` (JSON-style values plus `undefined` and the
`NaN` number); property access, truthiness, string coercion and number
coercion are modelled by executable functions following ECMAScript
semantics on this fragment.
-/

/-- A JavaScript runtime value as it appears in this client code: JSON
values plus `undefined`, with the `NaN` number as a separate constructor
(other numbers are modelled as integers, the only numbers these code paths
produce or compare). -/
inductive JSValue where
  | null
  | undefined
  | bool (b : Bool)
  | num (n : Int)
  | nan
  | str (s : String)
  | arr (elems : List JSValue)
  | obj (fields : List (String × JSValue))

namespace JSValue

/-- JavaScript truthiness: `false`, `0`, `NaN`, `""`, `null`, `undefined`
are falsy, everything else is truthy. -/
def truthy : JSValue → Bool
  | .null => false
  | .undefined => false
  | .bool b => b
  | .num n => n ≠ 0
  | .nan => false
  | .str s => s ≠ ""
  | .arr _ => true
  | .obj _ => true

/-- Property access `v[k]` for a non-nullish receiver: a named field of an
object, `undefined` otherwise (primitives and arrays have none of the
properties this code reads).  The callers below only apply it behind JS
optional chaining or a truthiness guard, where plain access cannot throw. -/
def get (v : JSValue) (k : String) : JSValue :=
  match v with
  | .obj fields => match fields.lookup k with
    | some x => x
    | none => .undefined
  | _ => .undefined

/-- Model of `typeof v === 'string'`. -/
def isStr : JSValue → Bool
  | .str _ => true
  | _ => false

/-- Model of `Array.isArray(v)`. -/
def isArr : JSValue → Bool
  | .arr _ => true
  | _ => false

/-- Model of `v && typeof v === 'object'` — truthy values of object type
(arrays and plain objects; `typeof null` is `'object'` but `null` is
falsy). -/
def isTruthyObject : JSValue → Bool
  | .arr _ => true
  | .obj _ => true
  | _ => false

mutual

/-- ECMAScript `ToString` on this fragment (used by template literals and
`Array.prototype.join`). -/
def jsToString : JSValue → String
  | .null => "null"
  | .undefined => "undefined"
  | .bool b => if b then "true" else "false"
  | .num n => toString n
  | .nan => "NaN"
  | .str s => s
  | .arr elems => jsJoinComma elems
  | .obj _ => "[object Object]"

/-- Model of the `Array.prototype.join(',')` body: `null` and `undefined` elements
render as the empty string. -/
def jsJoinComma : List JSValue → String
  | [] => ""
  | [v] => jsJoinElem v
  | v :: rest => jsJoinElem v ++ "," ++ jsJoinComma rest

/-- One element of an `Array.prototype.join`: `null`/`undefined` become
empty, other values are `ToString`-ed. -/
def jsJoinElem : JSValue → String
  | .null => ""
  | .undefined => ""
  | v => jsToString v

end

/-- Model of `Array.prototype.join(sep)` over element values. -/
def jsJoin (sep : String) (elems : List JSValue) : String :=
  String.intercalate sep (elems.map jsJoinElem)

/-- Escape of one character inside a JSON string literal
(`JSON.stringify` quoting). -/
def jsonEscapeChar (c : Char) : String :=
  if c = '"' then "\\\""
  else if c = '\\' then "\\\\"
  else if c = '\n' then "\\n"
  else if c = '\r' then "\\r"
  else if c = '\t' then "\\t"
  else if c.toNat < 0x20 then "\\u00" ++ (Nat.toDigits 16 c.toNat).asString
  else String.singleton c

/-- A JSON string literal for `s`, as `JSON.stringify` renders it. -/
def jsonQuote (s : String) : String :=
  "\"" ++ String.join (s.toList.map jsonEscapeChar) ++ "\""

mutual

/-- Model of `JSON.stringify` on this value fragment. `none` models the JavaScript
result `undefined` (for a top-level `undefined`); inside arrays `undefined`
renders as `null` and inside objects the field is omitted. -/
def jsonStringify : JSValue → Option String
  | .null => some "null"
  | .undefined => none
  | .bool b => some (if b then "true" else "false")
  | .num n => some (toString n)
  | .nan => some "null"
  | .str s => some (jsonQuote s)
  | .arr elems => some ("[" ++ String.intercalate "," (jsonElemStrs elems) ++ "]")
  | .obj fields => some ("\x7b" ++ String.intercalate "," (jsonFieldStrs fields) ++ "\x7d")

/-- Rendered elements of a JSON array (`undefined` renders as `null`). -/
def jsonElemStrs : List JSValue → List String
  | [] => []
  | v :: rest =>
    (match jsonStringify v with
     | some s => s
     | none => "null") :: jsonElemStrs rest

/-- Rendered `key:value` members of a JSON object, omitting fields whose
value stringifies to `undefined`. -/
def jsonFieldStrs : List (String × JSValue) → List String
  | [] => []
  | (k, v) :: rest =>
    match jsonStringify v with
    | some s => (jsonQuote k ++ ":" ++ s) :: jsonFieldStrs rest
    | none => jsonFieldStrs rest

end

end JSValue

/-! ## ErrorNormalizer — `extractErrorMessage` (lib/utils/errorHandler.ts)

The function is declared `(error: any) => string` but runs on arbitrary
runtime values, so the embedding returns `Except String JSValue`: `.error`
models a thrown `TypeError`, `.ok v` the returned value (which the source
can leave as a non-string when a truthy `message`/`msg` field is returned
verbatim). -/

/-- Nullish values (`null` or `undefined`), the receivers on which plain
property access throws. -/
def JSValue.isNullish : JSValue → Bool
  | .null => true
  | .undefined => true
  | _ => false

/-- One entry of a FastAPI validation-error array: the body of the arrow
function inside `data.detail.map(...)` — `err.loc?.slice(1).join('.') ||
'field'` followed by the template literal. Plain access `err.loc` throws
on a nullish entry, and `.slice(1).join('.')` throws unless `loc` is
nullish (optional chaining) or an array. -/
def validationEntry (e : JSValue) : Except String String :=
  if e.isNullish then .error "TypeError"
  else
    match e.get "loc" with
    | .null => .ok ("field: " ++ (e.get "msg").jsToString)
    | .undefined => .ok ("field: " ++ (e.get "msg").jsToString)
    | .arr xs =>
      let joined := JSValue.jsJoin "." (xs.drop 1)
      let location := if joined = "" then "field" else joined
      .ok (location ++ ": " ++ (e.get "msg").jsToString)
    | _ => .error "TypeError"

/-- Model of `Array.prototype.map` with a throwing callback: evaluates entries left
to right, the first thrown error aborts. -/
def mapEntries (f : JSValue → Except String String) : List JSValue → Except String (List String)
  | [] => .ok []
  | x :: xs =>
    match f x with
    | .error e => .error e
    | .ok s =>
      match mapEntries f xs with
      | .error e => .error e
      | .ok rest => .ok (s :: rest)

/-- Model of `Array.prototype.join(sep)` over already-rendered parts (used for the
`.join('; ')` over the mapped validation entries). -/
def joinStrings (sep : String) : List String → String
  | [] => ""
  | [x] => x
  | x :: rest => x ++ sep ++ joinStrings sep rest

/-- Lines 50-61 of `extractErrorMessage`: the fall-through branches after
the `error.response?.data` block — `error.message`, `error.msg`, then the
generic fallback. -/
def extractTail (error : JSValue) : Except String JSValue :=
  if (error.get "message").truthy then .ok (error.get "message")
  else if (error.get "msg").truthy then .ok (error.get "msg")
  else .ok (.str "An unexpected error occurred")

/-- Lines 15-48 of `extractErrorMessage`: the body of the
`if (error.response?.data)` block, falling through to `extractTail` when
`data` is a truthy non-object without usable `detail`/`message`. -/
def extractFromData (error data : JSValue) : Except String JSValue :=
  match data.get "detail" with
  | .arr entries =>
    match mapEntries validationEntry entries with
    | .ok parts => .ok (.str (joinStrings "; " parts))
    | .error e => .error e
  | .str s => .ok (.str s)
  | .obj fields =>
    let detail := JSValue.obj fields
    if (detail.get "message").truthy then .ok (detail.get "message")
    else if (detail.get "msg").truthy then .ok (detail.get "msg")
    else .ok (.str ((JSValue.jsonStringify detail).getD "undefined"))
  | _ =>
    if (data.get "message").truthy then .ok (data.get "message")
    else if data.isTruthyObject then
      .ok (.str ((JSValue.jsonStringify data).getD "undefined"))
    else extractTail error

/-- Translation of `extractErrorMessage` from lib/utils/errorHandler.ts, lines 7-62,
translated branch by branch.  `.error "TypeError"` models a thrown
exception (possible only inside the validation-array branch). -/
def extractErrorMessage (error : JSValue) : Except String JSValue :=
  if error.truthy = false then .ok (.str "An unknown error occurred")
  else match error with
  | .str s => .ok (.str s)
  | _ =>
    let data := (error.get "response").get "data"
    if data.truthy then extractFromData error data
    else extractTail error

/-! ## JobStatusTracker — `pollRepositoryStatus` (lib/api.ts, lines 491-512)

`repositoryApi.getById` is modelled by an oracle `fetch : Nat → Repository`
giving the repository returned by the n-th status request (n counted from
0).  The embedding returns the resolved value or the thrown timeout error,
together with the list of repositories fetched — one status request and one
synchronous `onUpdate(repo.status)` call per list entry, in order. -/

/-- The fields of `Repository` (lib/api.ts) that the poller reads.  At
runtime `status` is whatever string the backend sent, so it is modelled as
`String`, not as the four-value union of the TypeScript annotation. -/
structure Repository where
  id : Int
  status : String
  deriving DecidableEq, Repr

/-- Whitespace stripped by JavaScript `String.prototype.trim()` (the
characters of that class that occur in this protocol). -/
def jsTrimWs (c : Char) : Bool :=
  c = ' ' || c = '\t' || c = '\n' || c = '\r' || c = '\x0b' || c = '\x0c'

/-- The timeout rejection message of `pollRepositoryStatus`. -/
def pollTimeoutMessage : String := "Timeout waiting for repository to be processed"

/-- The `while (attempt < maxAttempts)` loop of `pollRepositoryStatus`:
`attempt` is the index of the next status request, `fuel` the number of
remaining iterations (loop condition `attempt < maxAttempts` with `attempt`
starting at 0 and incremented once per iteration runs the body exactly
`max maxAttempts 0` times unless a terminal status returns early). -/
def pollLoop (fetch : Nat → Repository) : Nat → Nat → Except String Repository × List Repository
  | _, 0 => (.error pollTimeoutMessage, [])
  | attempt, fuel + 1 =>
    let repo := fetch attempt
    if repo.status = "completed" ∨ repo.status = "failed" then
      (.ok repo, [repo])
    else
      let rest := pollLoop fetch (attempt + 1) fuel
      (rest.1, repo :: rest.2)

/-- Model of `pollRepositoryStatus(id, onUpdate, maxAttempts, interval)`: the result
and the trace of fetched repositories (each fetch is immediately followed
by the only `onUpdate` call of that iteration, so the trace is both the
sequence of status requests and the sequence of `onUpdate` arguments). -/
def pollRepositoryStatus (fetch : Nat → Repository) (maxAttempts : Int) :
    Except String Repository × List Repository :=
  pollLoop fetch 0 maxAttempts.toNat

/-! ## Chat validation — `repositoryApi.chat` / `repositoryApi.chatStream`
(lib/api.ts, lines 296-352) -/

/-- Model of JavaScript `String.prototype.trim()`: strip the whitespace
characters this code can meet from both ends (executable by structural
recursion, unlike the library trim). -/
def jsTrim (s : String) : String :=
  String.mk (((s.toList.dropWhile jsTrimWs).reverse.dropWhile jsTrimWs).reverse)

/-- The structure `ChatRequest` (lib/api.ts): the question plus the optional tuning
fields (absent fields are `none`, matching `undefined`). -/
structure ChatRequest where
  question : String
  top_k : Option Int := none
  prompt_style : Option String := none
  include_sources : Option Bool := none
  include_metadata : Option Bool := none
  deriving DecidableEq, Repr

/-- The request body `repositoryApi.chat`/`chatStream` actually send after
applying `??` defaults. -/
structure ValidatedChatRequest where
  question : String
  top_k : Int
  prompt_style : String
  include_sources : Bool
  include_metadata : Bool
  deriving DecidableEq, Repr

/-- Lines 307-313 / 333-339: the `validatedRequest` object built from a
request that passed validation. -/
def validateChatRequest (r : ChatRequest) : ValidatedChatRequest :=
  { question := jsTrim r.question
    top_k := r.top_k.getD 5
    prompt_style := r.prompt_style.getD "senior_dev"
    include_sources := r.include_sources.getD true
    include_metadata := r.include_metadata.getD true }

/-- Model of `repositoryApi.chat` up to the `api.post` call: `.error` is the message
of the synchronously thrown validation error (no request issued), `.ok` the
validated body handed to the transport.  The `!request || typeof request
!== 'object'` guard cannot fire (a `ChatRequest` is always an object), and
`typeof question !== 'string'` cannot fire on a `String` question. -/
def chatIssue (r : ChatRequest) : Except String ValidatedChatRequest :=
  if r.question = "" ∨ jsTrim r.question = "" then
    .error "Question is required and must be a non-empty string"
  else .ok (validateChatRequest r)

/-- Model of `repositoryApi.chatStream` up to the `fetch` call: same shape as
`chatIssue` with the streaming variant's guard and message
(`!request.question || !request.question.trim()`). -/
def chatStreamIssue (r : ChatRequest) : Except String ValidatedChatRequest :=
  if r.question = "" ∨ jsTrim r.question = "" then
    .error "Question is required"
  else .ok (validateChatRequest r)

/-! ## StreamingChatSession — `repositoryApi.chatStream` read loop
(lib/api.ts, lines 354-398)

The loop reads byte chunks, decodes each with `decoder.decode(value)`
(a `TextDecoder` call *without* `{stream: true}`, i.e. every chunk is
decoded and flushed independently), splits the decoded text on `'\n'`,
and for every line with the `'data: '` prefix parses the payload with
`JSON.parse` inside a `try` whose `catch` only logs.  The dispatched
callback invocations are collected as a trace. -/

/-- The replacement character U+FFFD, emitted by a `TextDecoder` in
replacement (non-fatal) mode. -/
def replacementChar : Char := Char.ofNat 0xFFFD

/-- A UTF-8 continuation byte `10xxxxxx`. -/
def utf8Cont (b : Nat) : Bool := 0x80 ≤ b && b ≤ 0xBF

/-- Admissible first continuation byte after a three-byte lead (WHATWG
UTF-8 decoder bounds: `E0` needs `A0..BF`, `ED` needs `80..9F`). -/
def utf8Cont3 (lead c : Nat) : Bool :=
  if lead = 0xE0 then 0xA0 ≤ c && c ≤ 0xBF
  else if lead = 0xED then 0x80 ≤ c && c ≤ 0x9F
  else utf8Cont c

/-- Admissible first continuation byte after a four-byte lead (`F0` needs
`90..BF`, `F4` needs `80..8F`). -/
def utf8Cont4 (lead c : Nat) : Bool :=
  if lead = 0xF0 then 0x90 ≤ c && c ≤ 0xBF
  else if lead = 0xF4 then 0x80 ≤ c && c ≤ 0x8F
  else utf8Cont c

/-- The WHATWG UTF-8 decoder in replacement mode, run to completion on a
byte list (this is `TextDecoder.decode(bytes)` without `{stream: true}`:
the stream ends with the argument, so a trailing incomplete sequence is
flushed as one U+FFFD).  On an inadmissible byte inside a sequence the
decoder emits U+FFFD and resumes at that byte. -/
def utf8Chars : List Nat → List Char
  | [] => []
  | b :: rest =>
    if b ≤ 0x7F then Char.ofNat b :: utf8Chars rest
    else if 0xC2 ≤ b && b ≤ 0xDF then
      match rest with
      | [] => [replacementChar]
      | c :: rest2 =>
        if utf8Cont c then
          Char.ofNat ((b - 0xC0) * 64 + (c - 0x80)) :: utf8Chars rest2
        else replacementChar :: utf8Chars (c :: rest2)
    else if 0xE0 ≤ b && b ≤ 0xEF then
      match rest with
      | [] => [replacementChar]
      | c :: rest2 =>
        if utf8Cont3 b c then
          match rest2 with
          | [] => [replacementChar]
          | d :: rest3 =>
            if utf8Cont d then
              Char.ofNat ((b - 0xE0) * 4096 + (c - 0x80) * 64 + (d - 0x80)) :: utf8Chars rest3
            else replacementChar :: utf8Chars (d :: rest3)
        else replacementChar :: utf8Chars (c :: rest2)
    else if 0xF0 ≤ b && b ≤ 0xF4 then
      match rest with
      | [] => [replacementChar]
      | c :: rest2 =>
        if utf8Cont4 b c then
          match rest2 with
          | [] => [replacementChar]
          | d :: rest3 =>
            if utf8Cont d then
              match rest3 with
              | [] => [replacementChar]
              | e :: rest4 =>
                if utf8Cont e then
                  Char.ofNat ((b - 0xF0) * 262144 + (c - 0x80) * 4096 +
                      (d - 0x80) * 64 + (e - 0x80)) :: utf8Chars rest4
                else replacementChar :: utf8Chars (e :: rest4)
            else replacementChar :: utf8Chars (d :: rest3)
        else replacementChar :: utf8Chars (c :: rest2)
    else replacementChar :: utf8Chars rest

/-- Model of `decoder.decode(value)` — one non-streaming UTF-8 decode of one chunk. -/
def utf8DecodeReplace (bytes : List Nat) : String :=
  String.mk (utf8Chars bytes)

/-- UTF-8 encoding of one scalar value (used to build concrete byte
chunks). -/
def utf8EncodeChar (c : Char) : List Nat :=
  let n := c.toNat
  if n ≤ 0x7F then [n]
  else if n ≤ 0x7FF then [0xC0 + n / 64, 0x80 + n % 64]
  else if n ≤ 0xFFFF then [0xE0 + n / 4096, 0x80 + (n / 64) % 64, 0x80 + n % 64]
  else [0xF0 + n / 262144, 0x80 + (n / 4096) % 64, 0x80 + (n / 64) % 64, 0x80 + n % 64]

/-- UTF-8 encoding of a string, the form in which the backend's text
reaches the reader. -/
def utf8Encode (s : String) : List Nat :=
  (s.toList.map utf8EncodeChar).flatten

/-! ### `JSON.parse`

A recursive-descent parser for the JSON fragment this protocol carries:
`null`, booleans, integer numbers, strings (with the standard escapes and
non-surrogate `\uXXXX`), arrays and objects.  Like `JSON.parse` it rejects
trailing garbage and truncated input; duplicate object keys keep the last
value.  (JSON fraction/exponent numbers and surrogate escapes do not occur
in this protocol and are rejected by the model.) -/

/-- JSON insignificant whitespace. -/
def jsonWs (c : Char) : Bool := c = ' ' || c = '\t' || c = '\n' || c = '\r'

/-- Skip insignificant whitespace. -/
def skipWs : List Char → List Char
  | [] => []
  | c :: cs => if jsonWs c then skipWs cs else c :: cs

/-- Value of a nonempty decimal digit list. -/
def digitsToNat (ds : List Char) : Nat :=
  ds.foldl (fun acc c => 10 * acc + (c.toNat - '0'.toNat)) 0

/-- Value of one hexadecimal digit, if any. -/
def hexDigit (c : Char) : Option Nat :=
  if '0' ≤ c ∧ c ≤ '9' then some (c.toNat - '0'.toNat)
  else if 'a' ≤ c ∧ c ≤ 'f' then some (c.toNat - 'a'.toNat + 10)
  else if 'A' ≤ c ∧ c ≤ 'F' then some (c.toNat - 'A'.toNat + 10)
  else none

/-- Body of a JSON string literal after the opening quote: the decoded
characters and the input after the closing quote. -/
def parseJsonString : List Char → Option (String × List Char)
  | [] => none
  | c :: cs =>
    if c = '"' then some ("", cs)
    else if c = '\\' then
      match cs with
      | [] => none
      | e :: cs2 =>
        let simple : Option Char :=
          if e = '"' then some '"'
          else if e = '\\' then some '\\'
          else if e = '/' then some '/'
          else if e = 'b' then some (Char.ofNat 8)
          else if e = 'f' then some (Char.ofNat 12)
          else if e = 'n' then some '\n'
          else if e = 'r' then some '\r'
          else if e = 't' then some '\t'
          else none
        match simple with
        | some d =>
          match parseJsonString cs2 with
          | some (s, rest) => some (String.singleton d ++ s, rest)
          | none => none
        | none =>
          if e = 'u' then
            match cs2 with
            | h1 :: h2 :: h3 :: h4 :: cs3 =>
              match hexDigit h1, hexDigit h2, hexDigit h3, hexDigit h4 with
              | some a, some b, some c', some d =>
                let n := ((a * 16 + b) * 16 + c') * 16 + d
                if 0xD800 ≤ n ∧ n ≤ 0xDFFF then none
                else
                  match parseJsonString cs3 with
                  | some (s, rest) => some (String.singleton (Char.ofNat n) ++ s, rest)
                  | none => none
              | _, _, _, _ => none
            | _ => none
          else none
    else if c.toNat < 0x20 then none
    else
      match parseJsonString cs with
      | some (s, rest) => some (String.singleton c ++ s, rest)
      | none => none

/-- A JSON integer literal (`-`? (`0` | nonzero digits)); fails when a
fraction or exponent follows, outside the fragment this protocol uses. -/
def parseJsonNumber (cs : List Char) : Option (JSValue × List Char) :=
  let (neg, cs1) : Bool × List Char :=
    match cs with
    | '-' :: r => (true, r)
    | _ => (false, cs)
  let ds := cs1.takeWhile Char.isDigit
  let rest := cs1.drop ds.length
  if ds = [] then none
  else if ds.length > 1 ∧ ds.head? = some '0' then none
  else match rest with
    | '.' :: _ => none
    | 'e' :: _ => none
    | 'E' :: _ => none
    | _ =>
      let n : Int := digitsToNat ds
      some (.num (if neg then -n else n), rest)

/-- Replace-or-append of an object member (`JSON.parse` keeps the last
value for a duplicated key, at the key's first position). -/
def insertField (fields : List (String × JSValue)) (k : String) (v : JSValue) :
    List (String × JSValue) :=
  match fields with
  | [] => [(k, v)]
  | (k', v') :: rest =>
    if k' = k then (k', v) :: rest
    else (k', v') :: insertField rest k v

mutual

/-- One JSON value at the head of the input (after skipping whitespace),
returning it with the remaining input.  `fuel` only bounds recursion
depth; `parseJSON` supplies more than the input length. -/
def parseJsonValue : Nat → List Char → Option (JSValue × List Char)
  | 0, _ => none
  | fuel + 1, cs =>
    match skipWs cs with
    | [] => none
    | c :: cs' =>
      if c = 'n' then
        match cs' with
        | 'u' :: 'l' :: 'l' :: rest => some (.null, rest)
        | _ => none
      else if c = 't' then
        match cs' with
        | 'r' :: 'u' :: 'e' :: rest => some (.bool true, rest)
        | _ => none
      else if c = 'f' then
        match cs' with
        | 'a' :: 'l' :: 's' :: 'e' :: rest => some (.bool false, rest)
        | _ => none
      else if c = '"' then
        match parseJsonString cs' with
        | some (s, rest) => some (.str s, rest)
        | none => none
      else if c = '[' then
        match skipWs cs' with
        | ']' :: rest => some (.arr [], rest)
        | cs'' => parseJsonElems fuel cs'' []
      else if c = '\x7b' then
        match skipWs cs' with
        | '\x7d' :: rest => some (.obj [], rest)
        | cs'' => parseJsonFields fuel cs'' []
      else if c = '-' ∨ c.isDigit then parseJsonNumber (c :: cs')
      else none

/-- Elements of a JSON array after `[`, accumulating in order. -/
def parseJsonElems : Nat → List Char → List JSValue → Option (JSValue × List Char)
  | 0, _, _ => none
  | fuel + 1, cs, acc =>
    match parseJsonValue fuel cs with
    | none => none
    | some (v, rest) =>
      match skipWs rest with
      | ',' :: rest2 => parseJsonElems fuel rest2 (acc ++ [v])
      | ']' :: rest2 => some (.arr (acc ++ [v]), rest2)
      | _ => none

/-- Members of a JSON object after `{`, accumulating with last-wins keys. -/
def parseJsonFields : Nat → List Char → List (String × JSValue) →
    Option (JSValue × List Char)
  | 0, _, _ => none
  | fuel + 1, cs, acc =>
    match skipWs cs with
    | '"' :: cs1 =>
      match parseJsonString cs1 with
      | none => none
      | some (k, rest) =>
        match skipWs rest with
        | ':' :: rest2 =>
          match parseJsonValue fuel rest2 with
          | none => none
          | some (v, rest3) =>
            let acc' := insertField acc k v
            match skipWs rest3 with
            | ',' :: rest4 => parseJsonFields fuel rest4 acc'
            | '\x7d' :: rest4 => some (.obj acc', rest4)
            | _ => none
        | _ => none
    | _ => none

end

/-- Model of `JSON.parse(s)`: `none` models a thrown `SyntaxError`. -/
def parseJSON (s : String) : Option JSValue :=
  match parseJsonValue (2 * s.length + 4) s.toList with
  | some (v, rest) => if skipWs rest = [] then some v else none
  | none => none

/-- One callback invocation observed during `chatStream`: the argument the
source passes (`event.content`, `event.message_id!`) is recorded as the
runtime value it is, after TypeScript's erased `as` casts. -/
inductive CallbackCall where
  | token (content : JSValue)
  | sources (content : JSValue)
  | done (messageId : JSValue)
  | error (content : JSValue)

/-- Split of a character list at every occurrence of a separator, the
semantics of `String.prototype.split` with a one-character separator:
`"a\nb\n"` gives `["a", "b", ""]`. -/
def splitOnChar (sep : Char) : List Char → List (List Char)
  | [] => [[]]
  | c :: rest =>
    if c = sep then [] :: splitOnChar sep rest
    else
      match splitOnChar sep rest with
      | h :: t => (c :: h) :: t
      | [] => [[c]]

/-- Lines 370-393: processing of one line of a decoded chunk.  A line
without the `'data: '` prefix is skipped; otherwise the payload after the
prefix (`line.slice(6)`) is `JSON.parse`d inside the `try` (a parse
failure or a primitive event whose `.type` access throws is caught and
only logged, producing no callback), and the `switch` on `event.type`
dispatches at most one callback. -/
def processLine (line : String) : List CallbackCall :=
  if ("data: ".toList).isPrefixOf line.toList then
    match parseJSON (String.mk (line.toList.drop 6)) with
    | none => []
    | some event =>
      match event.get "type" with
      | .str "token" => [.token (event.get "content")]
      | .str "sources" => [.sources (event.get "content")]
      | .str "done" => [.done (event.get "message_id")]
      | .str "error" => [.error (event.get "content")]
      | _ => []
  else []

/-- Lines 367-394: processing of one delivered byte chunk — decode it in
one non-streaming `TextDecoder` call, split the text on `'\n'`, process
every line. -/
def processChunk (chunk : List Nat) : List CallbackCall :=
  ((splitOnChar '\n' (utf8Chars chunk)).map (fun cs => processLine (String.mk cs))).flatten

/-- Lines 361-395: the whole read loop over the delivered chunks, in
order.  The loop has no terminal-state flag: it only stops when the stream
itself is exhausted, so every chunk is processed whatever events came
before. -/
def chatStreamRun (chunks : List (List Nat)) : List CallbackCall :=
  (chunks.map processChunk).flatten

/-! ## DebouncedQueryExecutor — field normalization
(`transformSearchResult`, frontend/lib/api/search.ts lines 13-46) -/

/-- Model of `a || b`. -/
def jsOr (a b : JSValue) : JSValue := if a.truthy then a else b

/-- Model of `a ?? b` (nullish coalescing). -/
def jsNullish (a b : JSValue) : JSValue :=
  match a with
  | .null => b
  | .undefined => b
  | _ => a

/-- Model of `parseInt(s, 10)`: strip leading whitespace, optional sign, longest
leading run of decimal digits; no digits means `NaN`, and trailing
non-digit characters are ignored. -/
def jsParseInt (s : String) : JSValue :=
  let cs := (s.toList).dropWhile fun c => c = ' ' ∨ c = '\t' ∨ c = '\n' ∨ c = '\r'
  let (neg, cs1) : Bool × List Char :=
    match cs with
    | '-' :: r => (true, r)
    | '+' :: r => (false, r)
    | _ => (false, cs)
  let ds := cs1.takeWhile Char.isDigit
  if ds = [] then .nan
  else
    let n : Int := digitsToNat ds
    .num (if neg then -n else n)

/-- Model of `Number(string)` on the integer strings this wire format carries:
trimmed empty string is `0`, an optionally signed digit run is its value,
anything else is `NaN` (the fraction/exponent/hex forms do not occur
here). -/
def strToNumber (s : String) : JSValue :=
  let cs := (s.toList).dropWhile fun c => c = ' ' ∨ c = '\t' ∨ c = '\n' ∨ c = '\r'
  let cs := cs.reverse.dropWhile (fun c => c = ' ' ∨ c = '\t' ∨ c = '\n' ∨ c = '\r') |>.reverse
  if cs = [] then .num 0
  else
    let (neg, cs1) : Bool × List Char :=
      match cs with
      | '-' :: r => (true, r)
      | '+' :: r => (false, r)
      | _ => (false, cs)
    if cs1 ≠ [] ∧ cs1.all Char.isDigit then
      .num (if neg then -(digitsToNat cs1 : Int) else digitsToNat cs1)
    else .nan

/-- ECMAScript `ToNumber` on the non-string values `isNaN` receives here:
arrays coerce through their joined string form, plain objects through
`"[object Object]"` (never numeric, hence `NaN`). -/
def jsToNumber : JSValue → JSValue
  | .null => .num 0
  | .undefined => .nan
  | .bool b => .num (if b then 1 else 0)
  | .num n => .num n
  | .nan => .nan
  | .str s => strToNumber s
  | .arr elems => strToNumber (JSValue.jsJoinComma elems)
  | .obj _ => .nan

/-- Global `isNaN(v)`: `ToNumber(v)` is `NaN`. -/
def jsIsNaN (v : JSValue) : Bool :=
  match jsToNumber v with
  | .nan => true
  | _ => false

/-- The `SearchResultItem` built by `transformSearchResult`: each field
holds the runtime value the source assigns (TypeScript's annotations are
erased, so e.g. `fileId` can hold a non-number, as the theorems below
show). -/
structure SearchResultItem where
  chunkId : JSValue
  fileId : JSValue
  filePath : JSValue
  snippet : JSValue
  highlightedSnippet : JSValue
  startLine : JSValue
  endLine : JSValue
  matchType : JSValue
  relevanceScore : JSValue
  semanticScore : JSValue
  keywordScore : JSValue
  symbolScore : JSValue
  language : JSValue
  symbolName : JSValue
  symbolType : JSValue

/-- Lines 19-22 of transformSearchResult: `parseInt` a string `file_id`,
leave any other value as it is. -/
def parseFileId : JSValue → JSValue
  | .str s => jsParseInt s
  | v => v

/-- Lines 18-27 of transformSearchResult: the `fileId` normalization —
`parseInt` a string `file_id`, then fall back to the sentinel `0` when the
result `isNaN` or is `null`/`undefined`. -/
def normalizeFileId (file_id : JSValue) : JSValue :=
  if jsIsNaN (parseFileId file_id) then .num 0
  else match parseFileId file_id with
    | .null => .num 0
    | .undefined => .num 0
    | v => v

/-- Translation of `transformSearchResult(apiResult)` (frontend/lib/api/search.ts, lines
13-46), field by field. -/
def transformSearchResult (apiResult : JSValue) : SearchResultItem :=
  { chunkId := jsNullish (apiResult.get "chunk_id") .undefined
    fileId := normalizeFileId (apiResult.get "file_id")
    filePath := jsOr (apiResult.get "file_path") (.str "")
    snippet := jsOr (apiResult.get "snippet") (.str "")
    highlightedSnippet :=
      jsOr (apiResult.get "highlighted_snippet") (jsOr (apiResult.get "snippet") (.str ""))
    startLine := jsOr (apiResult.get "start_line") (.num 0)
    endLine := jsOr (apiResult.get "end_line") (.num 0)
    matchType := if (apiResult.get "match_type").isArr then apiResult.get "match_type" else .arr []
    relevanceScore := jsOr (apiResult.get "relevance_score") (.num 0)
    semanticScore := jsNullish (apiResult.get "semantic_score") .undefined
    keywordScore := jsNullish (apiResult.get "keyword_score") .undefined
    symbolScore := jsNullish (apiResult.get "symbol_score") .undefined
    language := jsOr (apiResult.get "language") (.str "text")
    symbolName := jsNullish (apiResult.get "symbol_name") .undefined
    symbolType := jsNullish (apiResult.get "symbol_type") .undefined }

/-! ## DebouncedQueryExecutor — response application
(`useCodeSearch`, frontend/lib/hooks/useCodeSearch.ts lines 40-91)

The `search` callback awaits `searchApi.search` and then runs
`setResults(response.results); setTotalResults(response.totalResults);
setLatency(response.latencyMs)` followed by the `finally` clause — with no
generation or cancellation check of any kind.  The event loop is
single-threaded, so a session is a sequence of atomic state updates: the
synchronous prefix of an execution (`setIsLoading(true); setError(null)`),
and the resumption after a response settles.  Which execution's resumption
runs when is exactly the delivery order of the responses. -/

/-- The fields of the `SearchResponse` consumed by the hook (the hook reads
only `results`, `totalResults` and `latencyMs` from the response). -/
structure SearchResponse where
  results : List SearchResultItem
  totalResults : JSValue
  latencyMs : JSValue

/-- The state cells of `useCodeSearch` written by the `search` callback. -/
structure SearchHookState where
  results : List SearchResultItem
  totalResults : JSValue
  latency : JSValue
  isLoading : Bool
  error : Option String

/-- The initial state of the hook's cells (lines 28-32). -/
def initialSearchHookState : SearchHookState :=
  { results := [], totalResults := .num 0, latency := .num 0,
    isLoading := false, error := none }

/-- One atomic step of a search session on the event loop. -/
inductive SearchHookEvent where
  /-- The synchronous prefix of one execution of `search` (lines 61-62). -/
  | start
  /-- The resumption after that execution's response resolves
  (lines 72-74 and the `finally`). -/
  | success (r : SearchResponse)
  /-- The resumption after that execution's response rejects
  (lines 75-83). -/
  | failure (msg : String)

/-- State update performed by one step.  A `success` step applies its
response unconditionally — the source has no generation counter, so
nothing distinguishes a stale response from the latest one. -/
def searchHookStep (s : SearchHookState) : SearchHookEvent → SearchHookState
  | .start => { s with isLoading := true, error := none }
  | .success r =>
    { s with results := r.results, totalResults := r.totalResults,
             latency := r.latencyMs, isLoading := false }
  | .failure m =>
    { s with error := some m, results := [], totalResults := .num 0,
             isLoading := false }

/-- A whole schedule of interleaved executions, applied in event-loop
order. -/
def runSearchHook (events : List SearchHookEvent) : SearchHookState :=
  events.foldl searchHookStep initialSearchHookState

/-! ## Side conditions for the error normalizer

Decidable characterization of the inputs on which `extractErrorMessage`
behaves as its contract promises (total, non-empty string): the exact
complement of the failure modes exhibited below. -/

/-- A field value that the source may return verbatim is harmless when it
is falsy (skipped) or a string (truthy strings are non-empty). -/
def strOrFalsyB (x : JSValue) : Bool := !x.truthy || x.isStr

/-- Values of `loc` on which `loc?.slice(1).join('.')` does not throw:
nullish (optional chaining yields `undefined`) or an array. -/
def locOk : JSValue → Bool
  | .null => true
  | .undefined => true
  | .arr _ => true
  | _ => false

/-- A validation-array entry whose rendering cannot throw: the entry is
not nullish (so `err.loc` does not throw) and its `loc` passes `locOk`. -/
def locSafeB (e : JSValue) : Bool :=
  !e.isNullish && locOk (e.get "loc")

/-- The `data.detail` values on which the response block neither throws
nor produces an empty or non-string result. -/
def detailSafe : JSValue → Bool
  | .arr entries => !entries.isEmpty && entries.all locSafeB
  | .str s => !(s == "")
  | .obj fields =>
    strOrFalsyB ((JSValue.obj fields).get "message") &&
    strOrFalsyB ((JSValue.obj fields).get "msg")
  | _ => true

/-- Inputs on which `extractErrorMessage` returns a non-empty string: the
`detail` path is safe and every `message`/`msg` field it may return
verbatim is a string or falsy. -/
def safeErrorInput (v : JSValue) : Bool :=
  detailSafe (((v.get "response").get "data").get "detail")
  && strOrFalsyB (((v.get "response").get "data").get "message")
  && strOrFalsyB (v.get "message")
  && strOrFalsyB (v.get "msg")

/-! # Theorems -/

/-! ## String helpers -/

/-- Appending to a non-empty string on the left keeps it non-empty. -/
theorem str_append_ne_empty_left (a b : String) (h : a ≠ "") : a ++ b ≠ "" := by
  intro hc
  have hd : a.data ++ b.data = [] := by
    have := congrArg String.data hc
    simpa [String.data_append] using this
  exact h (String.ext (List.append_eq_nil.mp hd).1)

/-- Appending to a non-empty string on the right keeps it non-empty. -/
theorem str_append_ne_empty_right (a b : String) (h : b ≠ "") : a ++ b ≠ "" := by
  intro hc
  have hd : a.data ++ b.data = [] := by
    have := congrArg String.data hc
    simpa [String.data_append] using this
  exact h (String.ext (List.append_eq_nil.mp hd).2)

/-- A separator-join of a non-empty list of non-empty strings is
non-empty. -/
theorem joinStrings_ne_empty (sep : String) :
    ∀ parts : List String, parts ≠ [] → (∀ p ∈ parts, p ≠ "") →
      joinStrings sep parts ≠ ""
  | [], h, _ => absurd rfl h
  | [x], _, hp => by simpa [joinStrings] using hp x (by simp)
  | x :: y :: rest, _, hp => by
    have hx : x ≠ "" := hp x (by simp)
    show x ++ sep ++ joinStrings sep (y :: rest) ≠ ""
    exact str_append_ne_empty_left _ _ (str_append_ne_empty_left _ _ hx)

/-! ## Error normalizer lemmas -/

/-- A truthy value passing `strOrFalsyB` is a non-empty string. -/
theorem strOrFalsy_truthy {x : JSValue} (h : strOrFalsyB x = true)
    (ht : x.truthy = true) : ∃ s, x = .str s ∧ s ≠ "" := by
  unfold strOrFalsyB at h
  rw [ht] at h
  simp only [Bool.not_true, Bool.false_or] at h
  cases x <;> simp_all [JSValue.isStr, JSValue.truthy]

/-- A safe validation-array entry renders without throwing, to a non-empty
part. -/
theorem validationEntry_ok (e : JSValue) (h : locSafeB e = true) :
    ∃ s, validationEntry e = .ok s ∧ s ≠ "" := by
  rw [locSafeB, Bool.and_eq_true, Bool.not_eq_true'] at h
  obtain ⟨hnn, hloc⟩ := h
  rcases hl : e.get "loc" with _ | _ | b | n | _ | s | xs | gs <;> rw [hl] at hloc
  · exact ⟨_, by rw [validationEntry, hnn, if_neg (by simp), hl],
      str_append_ne_empty_left _ _ (by decide)⟩
  · exact ⟨_, by rw [validationEntry, hnn, if_neg (by simp), hl],
      str_append_ne_empty_left _ _ (by decide)⟩
  · exact absurd hloc (by simp [locOk])
  · exact absurd hloc (by simp [locOk])
  · exact absurd hloc (by simp [locOk])
  · exact absurd hloc (by simp [locOk])
  · refine ⟨_, by rw [validationEntry, hnn, if_neg (by simp), hl], ?_⟩
    exact str_append_ne_empty_left _ _ (str_append_ne_empty_right _ _ (by decide))
  · exact absurd hloc (by simp [locOk])

/-- Mapping safe validation entries throws nowhere and yields one
non-empty part per entry. -/
theorem mapEntries_ok : ∀ entries : List JSValue, entries.all locSafeB = true →
    ∃ parts, mapEntries validationEntry entries = .ok parts ∧
      parts.length = entries.length ∧ ∀ p ∈ parts, p ≠ ""
  | [], _ => ⟨[], rfl, rfl, by simp⟩
  | e :: rest, h => by
    rw [List.all_cons, Bool.and_eq_true] at h
    obtain ⟨s, hs, hsne⟩ := validationEntry_ok e h.1
    obtain ⟨parts, hp, hlen, hne⟩ := mapEntries_ok rest h.2
    refine ⟨s :: parts, by simp [mapEntries, hs, hp], by simp [hlen], ?_⟩
    intro p hpmem
    rcases List.mem_cons.mp hpmem with h' | h'
    · exact h' ▸ hsne
    · exact hne p h'

/-- The fall-through tail of the normalizer returns a non-empty string
when the fields it may return verbatim are strings or falsy. -/
theorem extractTail_ok (e : JSValue) (h1 : strOrFalsyB (e.get "message") = true)
    (h2 : strOrFalsyB (e.get "msg") = true) :
    ∃ s, extractTail e = .ok (.str s) ∧ s ≠ "" := by
  by_cases hm : (e.get "message").truthy = true
  · obtain ⟨s, hx, hs⟩ := strOrFalsy_truthy h1 hm
    exact ⟨s, by rw [extractTail, if_pos hm, hx], hs⟩
  · by_cases hg : (e.get "msg").truthy = true
    · obtain ⟨s, hx, hs⟩ := strOrFalsy_truthy h2 hg
      exact ⟨s, by rw [extractTail, if_neg hm, if_pos hg, hx], hs⟩
    · exact ⟨"An unexpected error occurred",
        by rw [extractTail, if_neg hm, if_neg hg], by decide⟩

/-- Inside the response block, safe inputs produce a non-empty string. -/
theorem extractFromData_ok (e d : JSValue)
    (hdet : detailSafe (d.get "detail") = true)
    (hdm : strOrFalsyB (d.get "message") = true)
    (h1 : strOrFalsyB (e.get "message") = true)
    (h2 : strOrFalsyB (e.get "msg") = true) :
    ∃ s, extractFromData e d = .ok (.str s) ∧ s ≠ "" := by
  have fallthrough : ∀ rest : Except String JSValue, rest =
      (if (d.get "message").truthy = true then .ok (d.get "message")
       else if d.isTruthyObject = true then
         .ok (.str ((JSValue.jsonStringify d).getD "undefined"))
       else extractTail e) →
      ∃ s, rest = .ok (.str s) ∧ s ≠ "" := by
    intro rest hrest
    by_cases hm : (d.get "message").truthy = true
    · obtain ⟨s, hx, hs⟩ := strOrFalsy_truthy hdm hm
      exact ⟨s, by rw [hrest, if_pos hm, hx], hs⟩
    · by_cases hobj : d.isTruthyObject = true
      · rw [hrest, if_neg hm, if_pos hobj]
        cases d with
        | arr xs =>
          refine ⟨"[" ++ String.intercalate "," (JSValue.jsonElemStrs xs) ++ "]",
            by simp [JSValue.jsonStringify], ?_⟩
          exact str_append_ne_empty_left _ _ (str_append_ne_empty_left _ _ (by decide))
        | obj gs =>
          refine ⟨"\x7b" ++ String.intercalate "," (JSValue.jsonFieldStrs gs) ++ "\x7d",
            by simp [JSValue.jsonStringify], ?_⟩
          exact str_append_ne_empty_left _ _ (str_append_ne_empty_left _ _ (by decide))
        | null => exact absurd hobj (by simp [JSValue.isTruthyObject])
        | undefined => exact absurd hobj (by simp [JSValue.isTruthyObject])
        | bool b => exact absurd hobj (by simp [JSValue.isTruthyObject])
        | num n => exact absurd hobj (by simp [JSValue.isTruthyObject])
        | nan => exact absurd hobj (by simp [JSValue.isTruthyObject])
        | str s => exact absurd hobj (by simp [JSValue.isTruthyObject])
      · rw [hrest, if_neg hm, if_neg hobj]
        exact extractTail_ok e h1 h2
  rcases hd : d.get "detail" with _ | _ | b | n | _ | s | entries | fields <;>
    rw [hd] at hdet
  · exact fallthrough _ (by rw [extractFromData, hd])
  · exact fallthrough _ (by rw [extractFromData, hd])
  · exact fallthrough _ (by rw [extractFromData, hd])
  · exact fallthrough _ (by rw [extractFromData, hd])
  · exact fallthrough _ (by rw [extractFromData, hd])
  · rw [detailSafe] at hdet
    simp only [Bool.not_eq_true', beq_eq_false_iff_ne, ne_eq] at hdet
    exact ⟨s, by rw [extractFromData, hd], hdet⟩
  · rw [detailSafe, Bool.and_eq_true, Bool.not_eq_true'] at hdet
    obtain ⟨hne, hall⟩ := hdet
    obtain ⟨parts, hmap, hlen, hpne⟩ := mapEntries_ok entries hall
    refine ⟨joinStrings "; " parts, by simp only [extractFromData, hd, hmap], ?_⟩
    refine joinStrings_ne_empty "; " parts ?_ hpne
    intro hnil
    rw [hnil] at hlen
    have : entries = [] := List.length_eq_zero.mp hlen.symm
    rw [this] at hne
    simp at hne
  · rw [detailSafe, Bool.and_eq_true] at hdet
    obtain ⟨hdm2, hdg2⟩ := hdet
    by_cases hm : ((JSValue.obj fields).get "message").truthy = true
    · obtain ⟨s, hx, hs⟩ := strOrFalsy_truthy hdm2 hm
      exact ⟨s, by simp only [extractFromData, hd]; rw [if_pos hm, hx], hs⟩
    · by_cases hg : ((JSValue.obj fields).get "msg").truthy = true
      · obtain ⟨s, hx, hs⟩ := strOrFalsy_truthy hdg2 hg
        exact ⟨s, by simp only [extractFromData, hd]; rw [if_neg hm, if_pos hg, hx], hs⟩
      · refine ⟨"\x7b" ++ String.intercalate "," (JSValue.jsonFieldStrs fields) ++ "\x7d",
          by simp only [extractFromData, hd]
             rw [if_neg hm, if_neg hg]
             simp [JSValue.jsonStringify], ?_⟩
        exact str_append_ne_empty_left _ _ (str_append_ne_empty_left _ _ (by decide))

/-- C5 (amended): extractErrorMessage is modelled totally, but on the
exact safe inputs — no validation-array entry with a non-array, non-nullish
location (which throws a TypeError), a non-empty detail array, a non-empty
string detail, and only falsy-or-string message and msg fields — it returns
a non-empty string.  Outside them it throws, returns the empty string, or
returns a non-string value, as the counterexample shows. -/
theorem extractErrorMessage_safe_total_nonempty (v : JSValue)
    (h : safeErrorInput v = true) :
    ∃ s, extractErrorMessage v = .ok (.str s) ∧ s ≠ "" := by
  rw [safeErrorInput] at h
  simp only [Bool.and_eq_true] at h
  obtain ⟨⟨⟨hdet, hdm⟩, hm⟩, hg⟩ := h
  cases v with
  | null => exact ⟨"An unknown error occurred", rfl, by decide⟩
  | undefined => exact ⟨"An unknown error occurred", rfl, by decide⟩
  | nan => exact ⟨"An unknown error occurred", rfl, by decide⟩
  | bool b =>
    cases b with
    | false => exact ⟨"An unknown error occurred", rfl, by decide⟩
    | true =>
      have heq : extractErrorMessage (.bool true) = extractTail (.bool true) := rfl
      rw [heq]
      exact extractTail_ok _ hm hg
  | num n =>
    by_cases hz : n = 0
    · subst hz; exact ⟨"An unknown error occurred", rfl, by decide⟩
    · have ht : (JSValue.num n).truthy = true := by simp [JSValue.truthy, hz]
      have heq : extractErrorMessage (.num n) =
          (if (JSValue.num n).truthy = false then .ok (.str "An unknown error occurred")
           else extractTail (.num n)) := rfl
      rw [heq, ht, if_neg (by simp)]
      exact extractTail_ok _ hm hg
  | str s =>
    by_cases hz : s = ""
    · subst hz; exact ⟨"An unknown error occurred", rfl, by decide⟩
    · exact ⟨s, by simp [extractErrorMessage, JSValue.truthy, hz], hz⟩
  | arr xs =>
    have heq : extractErrorMessage (.arr xs) = extractTail (.arr xs) := rfl
    rw [heq]
    exact extractTail_ok _ hm hg
  | obj fs =>
    have heq : extractErrorMessage (.obj fs) =
        (if (((JSValue.obj fs).get "response").get "data").truthy = true
         then extractFromData (.obj fs) (((JSValue.obj fs).get "response").get "data")
         else extractTail (.obj fs)) := rfl
    by_cases hdt : (((JSValue.obj fs).get "response").get "data").truthy = true
    · rw [heq, if_pos hdt]
      exact extractFromData_ok _ _ hdet hdm hm hg
    · rw [heq, if_neg hdt]
      exact extractTail_ok _ hm hg

/-- C5 (counterexample): extractErrorMessage is not total — on an Axios
error whose response data carries a validation-error array with an entry
whose loc is a string, the mapped arrow function evaluates
loc.slice(1).join, and a string has no join method, so the call throws a
TypeError instead of returning a string. -/
theorem extractErrorMessage_throws_on_string_loc :
    extractErrorMessage (.obj [("response", .obj [("data", .obj [("detail",
      .arr [.obj [("loc", .str "ab"), ("msg", .str "x")]])])])]) = .error "TypeError" := rfl

/-- C5 (witness): a concrete FastAPI validation error satisfies the safe
conditions, and the amended theorem yields its non-empty message. -/
theorem extractErrorMessage_safe_total_nonempty_witness :
    safeErrorInput (.obj [("response", .obj [("data", .obj [("detail",
      .arr [.obj [("loc", .arr [.str "body", .str "name"]), ("msg", .str "required")]])])])])
      = true
    ∧ ∃ s, extractErrorMessage (.obj [("response", .obj [("data", .obj [("detail",
        .arr [.obj [("loc", .arr [.str "body", .str "name"]), ("msg", .str "required")]])])])])
        = .ok (.str s) ∧ s ≠ "" :=
  ⟨rfl, extractErrorMessage_safe_total_nonempty _ rfl⟩

/-- C9 (counterexample): the empty string is a string input that is not
returned as-is — the leading falsiness guard catches it first and returns
the generic unknown-error message, so string inputs do not take precedence
right after null and undefined. -/
theorem extractErrorMessage_empty_string_not_identity :
    extractErrorMessage (.str "") = .ok (.str "An unknown error occurred")
    ∧ JSValue.str "An unknown error occurred" ≠ JSValue.str "" := by
  refine ⟨rfl, fun h => ?_⟩
  injection h with h'
  exact absurd h' (by decide)

/-- C9 (amended): every non-empty string input is returned as-is; the
empty string joins null and undefined in mapping to the generic
unknown-error message. -/
theorem extractErrorMessage_nonempty_string_identity (s : String) (h : s ≠ "") :
    extractErrorMessage (.str s) = .ok (.str s) := by
  simp [extractErrorMessage, JSValue.truthy, h]

/-- C9 (witness): a concrete non-empty string comes back unchanged. -/
theorem extractErrorMessage_nonempty_string_identity_witness :
    ("boom" : String) ≠ "" ∧ extractErrorMessage (.str "boom") = .ok (.str "boom") :=
  ⟨by decide, extractErrorMessage_nonempty_string_identity "boom" (by decide)⟩

/-! ## Claim theorems for the poller, chat validation, search pipeline -/

/-- C6: for any bound of at least four attempts, a status sequence
pending, running, running, completed resolves the poll with the completed
repository and produces exactly four fetches — and hence exactly four
`onUpdate` calls with those statuses, in that order — with no status
request after the terminal one. -/
theorem pollRepositoryStatus_four_polls (fetch : Nat → Repository) (maxAttempts : Int)
    (hmax : 4 ≤ maxAttempts)
    (h0 : (fetch 0).status = "pending") (h1 : (fetch 1).status = "running")
    (h2 : (fetch 2).status = "running") (h3 : (fetch 3).status = "completed") :
    pollRepositoryStatus fetch maxAttempts =
      (.ok (fetch 3), [fetch 0, fetch 1, fetch 2, fetch 3]) := by
  obtain ⟨m, hm⟩ : ∃ m, maxAttempts.toNat = m + 4 :=
    ⟨maxAttempts.toNat - 4, by omega⟩
  rw [pollRepositoryStatus, hm]
  simp [pollLoop, h0, h1, h2, h3]

/-- C6 (witness): the four-status scenario at the concrete bound 4. -/
theorem pollRepositoryStatus_four_polls_witness :
    (4 : Int) ≤ 4
    ∧ pollRepositoryStatus
        (fun n => if n = 0 then ⟨1, "pending"⟩
                  else if n ≤ 2 then ⟨1, "running"⟩ else ⟨1, "completed"⟩) 4
      = (.ok ⟨1, "completed"⟩,
         [⟨1, "pending"⟩, ⟨1, "running"⟩, ⟨1, "running"⟩, ⟨1, "completed"⟩]) :=
  ⟨by decide,
   pollRepositoryStatus_four_polls _ 4 (by decide) rfl rfl rfl rfl⟩

/-- C10: a non-positive `maxAttempts` never runs the loop body — the poll
rejects immediately with the timeout error, issuing zero status requests
and zero `onUpdate` calls. -/
theorem pollRepositoryStatus_nonpositive_attempts (fetch : Nat → Repository)
    (maxAttempts : Int) (h : maxAttempts ≤ 0) :
    pollRepositoryStatus fetch maxAttempts = (.error pollTimeoutMessage, []) := by
  rw [pollRepositoryStatus, Int.toNat_of_nonpos h]
  rfl

/-- C10 (witness): the zero-attempt call on a concrete resource. -/
theorem pollRepositoryStatus_nonpositive_attempts_witness :
    (0 : Int) ≤ 0
    ∧ pollRepositoryStatus (fun _ => ⟨1, "pending"⟩) 0
      = (.error pollTimeoutMessage, []) :=
  ⟨by decide, pollRepositoryStatus_nonpositive_attempts _ 0 (by decide)⟩

/-- C8: a question whose trim is empty is rejected synchronously by both
chat senders with their validation errors; the transport sees no request
(the `.error` results are produced before the `api.post`/`fetch` calls). -/
theorem chat_validation_rejects_blank (r : ChatRequest) (h : jsTrim r.question = "") :
    chatIssue r = .error "Question is required and must be a non-empty string"
    ∧ chatStreamIssue r = .error "Question is required" := by
  constructor <;> simp [chatIssue, chatStreamIssue, h]

/-- C8 (witness): a whitespace-only question is rejected by both senders. -/
theorem chat_validation_rejects_blank_witness :
    jsTrim "   " = ""
    ∧ chatIssue { question := "   " }
        = .error "Question is required and must be a non-empty string"
    ∧ chatStreamIssue { question := "   " } = .error "Question is required" := by
  refine ⟨rfl, ?_, ?_⟩
  · exact (chat_validation_rejects_blank { question := "   " } rfl).1
  · exact (chat_validation_rejects_blank { question := "   " } rfl).2

/-- The normalized fileId can never be the NaN value: a NaN intermediate
is caught by the `isNaN` guard and replaced by the sentinel, and any value
surviving the guard is not NaN. -/
theorem normalizeFileId_ne_nan (w : JSValue) : normalizeFileId w ≠ .nan := by
  rw [normalizeFileId]
  by_cases hnan : jsIsNaN (parseFileId w) = true
  · rw [if_pos hnan]
    exact fun h => JSValue.noConfusion h
  · rw [if_neg hnan]
    cases hp : parseFileId w with
    | nan => exact absurd (hp ▸ rfl) hnan
    | null => exact fun h => JSValue.noConfusion h
    | undefined => exact fun h => JSValue.noConfusion h
    | bool b => exact fun h => JSValue.noConfusion h
    | num n => exact fun h => JSValue.noConfusion h
    | str s => exact fun h => JSValue.noConfusion h
    | arr xs => exact fun h => JSValue.noConfusion h
    | obj fs => exact fun h => JSValue.noConfusion h

/-- C7 (counterexample): a boolean `file_id` is neither missing nor
numeric, yet `isNaN(true)` is false (`Number(true)` is `1`), so the
normalization leaves `fileId` as the boolean `true` instead of coercing it
to the sentinel `0`. -/
theorem transformSearchResult_bool_fileId_not_sentinel :
    (transformSearchResult (.obj [("file_id", .bool true)])).fileId = .bool true
    ∧ JSValue.bool true ≠ .num 0 :=
  ⟨rfl, fun h => JSValue.noConfusion h⟩

/-- C7 (amended): a numeric-string `file_id` parses to its number; a
missing, null, or non-numeric-string `file_id` coerces to the sentinel 0;
the normalized fileId is never NaN and no exception is modelled — but a
non-string `file_id` whose JS number coercion is not NaN (such as a
boolean) passes through unchanged rather than being coerced to the
sentinel. -/
theorem transformSearchResult_fileId_amended :
    (transformSearchResult (.obj [("file_id", .str "42")])).fileId = .num 42
    ∧ (transformSearchResult (.obj [])).fileId = .num 0
    ∧ (transformSearchResult (.obj [("file_id", .null)])).fileId = .num 0
    ∧ (transformSearchResult (.obj [("file_id", .str "abc")])).fileId = .num 0
    ∧ (∀ v : JSValue, (transformSearchResult v).fileId ≠ .nan)
    ∧ (transformSearchResult (.obj [("file_id", .bool true)])).fileId = .bool true := by
  refine ⟨rfl, rfl, rfl, rfl, ?_, rfl⟩
  intro v
  show normalizeFileId (v.get "file_id") ≠ .nan
  exact normalizeFileId_ne_nan _

/-- C1: the search hook applies whichever response resolves last.  In the
schedule issue A, issue B, resolve B, resolve A — query A's slow response
arriving after query B's response was applied — the final visible state
carries A's results and total-count, not B's: the source has no generation
counter, so the stale response is not discarded. -/
theorem useCodeSearch_last_response_wins :
    (runSearchHook [.start, .start,
        .success ⟨[transformSearchResult (.obj [("file_path", .str "b.ts")])], .num 2, .num 6⟩,
        .success ⟨[transformSearchResult (.obj [("file_path", .str "a.ts")])], .num 1, .num 5⟩]).totalResults
      = .num 1
    ∧ (runSearchHook [.start, .start,
        .success ⟨[transformSearchResult (.obj [("file_path", .str "b.ts")])], .num 2, .num 6⟩,
        .success ⟨[transformSearchResult (.obj [("file_path", .str "a.ts")])], .num 1, .num 5⟩]).results
      = [transformSearchResult (.obj [("file_path", .str "a.ts")])]
    ∧ JSValue.num 1 ≠ JSValue.num 2 := by
  refine ⟨rfl, rfl, fun h => ?_⟩
  injection h with h'
  exact absurd h' (by decide)

/-- C2: a logical data line delivered across two chunks is dropped, not
parsed once: each chunk is split on line boundaries independently with no
pending buffer, so the first fragment fails `JSON.parse` (silently caught)
and the second lacks the `data: ` prefix (skipped) — while the same line
in one delivery yields exactly one token event. -/
theorem chatStream_split_line_dropped :
    chatStreamRun [utf8Encode "data: \x7b\"type\":\"tok",
        utf8Encode "en\",\"content\":\"hi\"\x7d\n"] = []
    ∧ chatStreamRun [utf8Encode "data: \x7b\"type\":\"token\",\"content\":\"hi\"\x7d\n"]
      = [.token (.str "hi")] :=
  ⟨rfl, rfl⟩

/-- C3: the per-chunk decode (`decoder.decode(value)` without
`stream: true`) flushes at every chunk boundary, so the two bytes of
LATIN SMALL LETTER E WITH ACUTE split across two chunks decode to two
replacement characters, not to the single correct character the same bytes
give in one chunk. -/
theorem chatStream_decoder_corrupts_split_char :
    utf8DecodeReplace [0xC3] ++ utf8DecodeReplace [0xA9] = "��"
    ∧ utf8DecodeReplace [0xC3, 0xA9] = "é"
    ∧ ("��" : String) ≠ "é" :=
  ⟨rfl, rfl, by decide⟩

/-- C4: the read loop has no terminal flag — a token frame arriving after
the done frame still dispatches its callback: the trace shows a token
invocation after the done invocation instead of stopping at the terminal
event. -/
theorem chatStream_dispatches_after_done :
    chatStreamRun [utf8Encode
        "data: \x7b\"type\":\"done\",\"message_id\":7\x7d\ndata: \x7b\"type\":\"token\",\"content\":\"x\"\x7d\n"]
      = [.done (.num 7), .token (.str "x")] :=
  rfl
